import Mathlib

/-!
Shallow embedding of the knowledge-graph data layer of the repository
(`src/src/transport/stdio.ts`, class `Neo4jConnection`).

The source talks to Neo4j through Cypher query strings.  The embedding
models the property graph as explicit finite lists of nodes and edges and
translates every Cypher statement clause by clause.  Two points of Cypher
semantics matter throughout and are modelled faithfully:

* `MERGE ... ON CREATE SET ... ON MATCH SET ...` is an upsert keyed by the
  matched pattern: it updates every matched edge, or inserts one new edge
  when nothing matches.

* A `WHERE` that immediately follows a `MATCH` or `OPTIONAL MATCH` is part
  of that clause's pattern, not a row filter.  For `OPTIONAL MATCH` this
  means a row whose bindings fail the predicate is NOT removed: the
  optional bindings become null and the row survives.  In particular a
  disjunct of the shape `x IS NULL` inside such a `WHERE` can never hold
  while `x` is being bound by the pattern, so it is dead.  Several queries
  in the source rely on such a `WHERE` acting as a row filter; the
  embedding reproduces what the queries actually compute.

* A `WITH` clause strictly delimits variable scope: only the variables it
  projects remain visible afterwards.  The query built by
  `getRecommendedNextConcepts` references a variable in its `RETURN` that
  its second `WITH` has dropped, so that query is rejected by the server
  at compile time and the method's only observable behaviour is the
  propagated error; the embedding models exactly that error path.

Nodes are addressed by `name` (users by `id`) exactly as every Cypher
query in the source does (`MATCH (c:Concept {name: $name})`); the unique
ids generated with `crypto.randomUUID()` are never used for lookups and
are omitted.  Timestamps (`datetime()`) are modelled by an explicit `now`
parameter.  JavaScript numbers that only ever hold integers (proficiency,
complexity, difficulty, priority, counts) are `Int`/`Nat`; the fractional
attribute defaults (importance 0.5, confidence 0.8, strength 0.5) are
`Rat`.
-/

namespace KG

/-- A `User` node together with its 1:1 `LearningProfile`
(`createUser` always creates both atomically, joined by `HAS`). -/
structure User where
  id : String
  name : String
  preferredLearningStyle : String
  defaultDetailLevel : String
  activeTopics : List String
  learningGoals : String
  profileLastUpdated : Nat
deriving Repr, DecidableEq

/-- A `Topic` node (interface `TopicData`). -/
structure Topic where
  name : String
  category : String
  difficulty : Int
  summary : String
  prerequisites : List String
deriving Repr, DecidableEq

/-- A `Concept` node (interface `ConceptData`).  `complexity` is optional
because the recommendation query defends against a null complexity
(`CASE WHEN c.complexity IS NULL THEN 3 ...`). -/
structure Concept where
  name : String
  description : String
  complexity : Option Int
  shortExplanation : String
  commonMisconceptions : List String
  useCases : List String
  codeExample : String
deriving Repr, DecidableEq

/-- A `BELONGS_TO` edge (Concept to Topic). -/
structure BelongsTo where
  conceptName : String
  topicName : String
  primary : Bool
  importance : Rat
deriving Repr, DecidableEq

/-- A `PREREQUISITE_FOR` edge (prerequisite Concept to dependent Concept). -/
structure PrereqFor where
  prereqName : String
  conceptName : String
  strength : Rat
  explanation : String
deriving Repr, DecidableEq

/-- A `RELATED_TO` edge between two Concepts. -/
structure RelatedTo where
  c1 : String
  c2 : String
  relationshipType : String
  strength : Rat
  contextualNote : String
deriving Repr, DecidableEq

/-- A `KNOWS` edge (LearningProfile to Concept). -/
structure Knows where
  userId : String
  conceptName : String
  proficiency : Int
  confidence : Rat
  firstSeen : Nat
  lastUpdated : Nat
  evidenceCount : Nat
  knowledgeStage : String
  misconceptions : List String
  notes : String
deriving Repr, DecidableEq

/-- A `TRACKS` edge (LearningProfile to Topic). -/
structure Tracks where
  userId : String
  topicName : String
  since : Nat
  active : Bool
  priority : Int
  goal : String
deriving Repr, DecidableEq

/-- A `LearningEvent` node with its `EXPERIENCED` (from the User) and
`INVOLVES` (to the Concept) edges; `createLearningEvent` always creates
the three together. -/
structure LearningEvent where
  userId : String
  timestamp : Nat
  eventType : String
  details : String
  conceptName : String
deriving Repr, DecidableEq

/-- The whole property graph. -/
structure Graph where
  users : List User
  topics : List Topic
  concepts : List Concept
  belongsTo : List BelongsTo
  prereqFor : List PrereqFor
  relatedTo : List RelatedTo
  knows : List Knows
  tracks : List Tracks
  events : List LearningEvent
deriving Repr, DecidableEq

/-- The empty database. -/
def emptyGraph : Graph := ⟨[], [], [], [], [], [], [], [], []⟩

-- ============= GENERIC LIST HELPERS =============

/-- The `MERGE ... ON CREATE SET ... ON MATCH SET ...` primitive: update
every entry matching `p`, or append `a` when nothing matches. -/
def upsertBy (p : α → Bool) (upd : α → α) (a : α) (l : List α) : List α :=
  if l.any p then l.map (fun x => if p x then upd x else x) else l ++ [a]

/-- `collect(DISTINCT ...)`: keep the first occurrence of each value. -/
def dedupKeep [DecidableEq α] : List α → List α
  | [] => []
  | a :: as => a :: (dedupKeep as).filter (fun b => decide (¬ b = a))

/-- Stable insertion (descending by `key`), for `ORDER BY ... DESC`. -/
def insertByDesc (key : α → Int) (a : α) : List α → List α
  | [] => [a]
  | b :: bs => if key b < key a then a :: b :: bs else b :: insertByDesc key a bs

/-- Stable insertion sort, descending by `key`. -/
def sortByDesc (key : α → Int) : List α → List α
  | [] => []
  | a :: as => insertByDesc key a (sortByDesc key as)

/-- Lower-casing as Cypher `toLower`, character by character. -/
def lowerStr (s : String) : String := String.mk (s.data.map Char.toLower)

/-- `leadsList n h`: `n` is a leading segment of `h`. -/
def leadsList : List Char → List Char → Bool
  | [], _ => true
  | _ :: _, [] => false
  | a :: as, b :: bs => a == b && leadsList as bs

/-- `insideList n h`: `n` occurs contiguously inside `h`. -/
def insideList (n : List Char) : List Char → Bool
  | [] => leadsList n []
  | b :: bs => leadsList n (b :: bs) || insideList n bs

/-- Cypher `hay CONTAINS sub` on strings. -/
def containsSub (hay sub : String) : Bool := insideList sub.data hay.data

-- ============= EXISTENCE CHECKS =============

/-- `topicExists` (`MATCH (t:Topic {name}) RETURN count(t) > 0`). -/
def topicExists (g : Graph) (topicName : String) : Bool :=
  g.topics.any (fun t => t.name == topicName)

/-- `conceptExists` (`MATCH (c:Concept {name}) RETURN count(c) > 0`). -/
def conceptExists (g : Graph) (conceptName : String) : Bool :=
  g.concepts.any (fun c => c.name == conceptName)

/-- `userExists` (`MATCH (u:User {id}) RETURN count(u) > 0`). -/
def userExists (g : Graph) (userId : String) : Bool :=
  g.users.any (fun u => u.id == userId)

-- ============= ENSURE-EXISTS (LAZY AUTO-CREATION) =============

/-- The placeholder Topic `ensureTopicExists` creates through `createTopic`. -/
def placeholderTopic (topicName : String) (category : String) : Topic :=
  { name := topicName
    category := category
    difficulty := 3
    summary := "Auto-generated topic for " ++ topicName
    prerequisites := [] }

/-- `ensureTopicExists`: create the topic with placeholder data unless it
exists (default category "concept"). -/
def ensureTopicExists (g : Graph) (topicName : String)
    (category : String := "concept") : Graph :=
  { g with topics :=
      if topicExists g topicName then g.topics
      else g.topics ++ [placeholderTopic topicName category] }

/-- The placeholder Concept `ensureConceptExists` creates through
`createConcept` (absent `codeExample` defaults to `""`). -/
def placeholderConcept (conceptName : String) : Concept :=
  { name := conceptName
    description := "Auto-generated concept"
    complexity := some 3
    shortExplanation := "This concept was automatically created based on learning data"
    commonMisconceptions := []
    useCases := []
    codeExample := "" }

/-- `ensureConceptExists`: create the concept with placeholder data unless
it exists. -/
def ensureConceptExists (g : Graph) (conceptName : String) : Graph :=
  { g with concepts :=
      if conceptExists g conceptName then g.concepts
      else g.concepts ++ [placeholderConcept conceptName] }

-- ============= RELATIONSHIP METHODS =============

/-- `associateConceptWithTopic`: ensure both endpoints, then
`MERGE (c)-[b:BELONGS_TO]->(t)` setting `primary`/`importance` on both
create and match. -/
def associateConceptWithTopic (g : Graph) (conceptName topicName : String)
    (isPrimary : Bool := false) (importance : Rat := 1/2) : Graph :=
  let g1 := ensureTopicExists (ensureConceptExists g conceptName) topicName
  let upd := fun (b : BelongsTo) => { b with primary := isPrimary, importance := importance }
  let fresh : BelongsTo := ⟨conceptName, topicName, isPrimary, importance⟩
  let bs := upsertBy (fun b => b.conceptName == conceptName && b.topicName == topicName) upd fresh g1.belongsTo
  { g1 with belongsTo := bs }

/-- `setConceptPrerequisite`: ensure both concepts, then
`MERGE (prereq)-[p:PREREQUISITE_FOR]->(concept)` setting
`strength`/`explanation` on both create and match. -/
def setConceptPrerequisite (g : Graph) (prerequisiteName conceptName : String)
    (strength : Rat := 1/2) (explanation : String := "") : Graph :=
  let g1 := ensureConceptExists (ensureConceptExists g prerequisiteName) conceptName
  let upd := fun (p : PrereqFor) => { p with strength := strength, explanation := explanation }
  let fresh : PrereqFor := ⟨prerequisiteName, conceptName, strength, explanation⟩
  let ps := upsertBy (fun p => p.prereqName == prerequisiteName && p.conceptName == conceptName) upd fresh g1.prereqFor
  { g1 with prereqFor := ps }

/-- `relateConceptsTogether`: ensure both concepts, then
`MERGE (c1)-[r:RELATED_TO]->(c2)` setting all three attributes on both
create and match. -/
def relateConceptsTogether (g : Graph) (concept1Name concept2Name : String)
    (relationshipType : String) (strength : Rat := 1/2)
    (contextualNote : String := "") : Graph :=
  let g1 := ensureConceptExists (ensureConceptExists g concept1Name) concept2Name
  let upd := fun (r : RelatedTo) =>
    { r with relationshipType := relationshipType, strength := strength, contextualNote := contextualNote }
  let fresh : RelatedTo := ⟨concept1Name, concept2Name, relationshipType, strength, contextualNote⟩
  let rs := upsertBy (fun r => r.c1 == concept1Name && r.c2 == concept2Name) upd fresh g1.relatedTo
  { g1 with relatedTo := rs }

-- ============= KNOWLEDGE STATE ENGINE =============

/-- `getKnowledgeStage` (the `deriveStage` table), translated from the
`switch` statement verbatim. -/
def getKnowledgeStage (eventType : String) (proficiency : Int) : String :=
  if eventType = "learned" then
    if proficiency ≤ 2 then "aware" else "learning"
  else if eventType = "practiced" then
    if proficiency ≤ 3 then "learning" else "practicing"
  else if eventType = "confused" then "learning"
  else if eventType = "mastered" then "mastered"
  else if proficiency ≤ 1 then "aware"
  else if proficiency ≤ 3 then "learning"
  else if proficiency ≤ 4 then "practicing"
  else "mastered"

/-- One concept entry of the payload of `updateLearningProfile` /
`updateConceptKnowledge`. -/
structure EvidenceInput where
  name : String
  proficiency : Int
  eventType : String
  details : String
deriving Repr, DecidableEq

/-- The `ON MATCH SET` branch of the `KNOWS` merge: raise proficiency to
the maximum, bump `evidenceCount`, restamp `lastUpdated`, recompute the
stage from the new evidence only, append the details to `notes`. -/
def applyKnowsMatch (ev : EvidenceInput) (now : Nat) (k : Knows) : Knows :=
  { k with
    proficiency := if ev.proficiency > k.proficiency then ev.proficiency else k.proficiency
    lastUpdated := now
    evidenceCount := k.evidenceCount + 1
    knowledgeStage := getKnowledgeStage ev.eventType ev.proficiency
    notes := k.notes ++ "\n" ++ ev.details }

/-- The `ON CREATE SET` branch of the `KNOWS` merge. -/
def newKnows (userId : String) (ev : EvidenceInput) (now : Nat) : Knows :=
  { userId := userId
    conceptName := ev.name
    proficiency := ev.proficiency
    confidence := 4/5
    firstSeen := now
    lastUpdated := now
    evidenceCount := 1
    knowledgeStage := getKnowledgeStage ev.eventType ev.proficiency
    misconceptions := []
    notes := ev.details }

/-- The second statement of `updateConceptKnowledge`: for every Topic the
concept belongs to, `MERGE (lp)-[track:TRACKS]->(t)`, creating it active
with priority 3 and goal "Learning", or re-activating it. -/
def tracksUpsert (g : Graph) (userId conceptName : String) (now : Nat) : Graph :=
  let topicNames := (g.topics.filter (fun t =>
    g.belongsTo.any (fun b =>
      b.conceptName == conceptName && b.topicName == t.name))).map (fun t => t.name)
  let step := fun (trs : List Tracks) (tn : String) =>
    upsertBy (fun tr => tr.userId == userId && tr.topicName == tn)
      (fun tr => { tr with active := true })
      ⟨userId, tn, now, true, 3, "Learning"⟩
      trs
  { g with tracks :=
      if userExists g userId && conceptExists g conceptName then
        topicNames.foldl step g.tracks
      else g.tracks }

/-- `updateConceptKnowledge` (private method): ensure the concept, merge
the `KNOWS` edge, then upsert the `TRACKS` edges.  The merge only runs
when the leading `MATCH (u:User {id})-[:HAS]->(lp)` and
`MATCH (c:Concept {name})` succeed. -/
def updateConceptKnowledge (g : Graph) (userId : String) (ev : EvidenceInput)
    (now : Nat) : Graph :=
  let g1 := ensureConceptExists g ev.name
  let ks := upsertBy (fun k => k.userId == userId && k.conceptName == ev.name)
    (applyKnowsMatch ev now) (newKnows userId ev now) g1.knows
  let g2 :=
    { g1 with knows :=
        if userExists g1 userId && conceptExists g1 ev.name then ks else g1.knows }
  tracksUpsert g2 userId ev.name now

/-- The payload of `updateLearningProfile`. -/
structure ProfileUpdateData where
  concepts : List EvidenceInput
  understanding : Int
  misconceptions : List String
deriving Repr, DecidableEq

/-- `updateLearningProfile`: apply `updateConceptKnowledge` to every
concept of the payload in order, then restamp the profile's
`lastUpdated`.  (`understanding` and `misconceptions` are accepted but
unused, as in the source.) -/
def updateLearningProfile (g : Graph) (userId : String)
    (data : ProfileUpdateData) (now : Nat) : Graph :=
  let g1 := data.concepts.foldl
    (fun acc ev => updateConceptKnowledge acc userId ev now) g
  { g1 with users :=
      g1.users.map (fun u =>
        if u.id == userId then { u with profileLastUpdated := now } else u) }

-- ============= OBSERVERS ON THE KNOWS EDGE =============

/-- The first `KNOWS` edge of `(userId, conceptName)`, as Cypher pattern
matching would bind it. -/
def knowsEdge (g : Graph) (userId conceptName : String) : Option Knows :=
  g.knows.find? (fun k => k.userId == userId && k.conceptName == conceptName)

/-- All `KNOWS` edges of `(userId, conceptName)`. -/
def knowsFor (g : Graph) (userId conceptName : String) : List Knows :=
  g.knows.filter (fun k => k.userId == userId && k.conceptName == conceptName)

/-- The stored proficiency on the `KNOWS` edge, when present. -/
def knowsProficiency (g : Graph) (userId conceptName : String) : Option Int :=
  (knowsEdge g userId conceptName).map (fun k => k.proficiency)

-- ============= GAP DETECTION =============

/-- One entry of a `missingPrerequisites` collection of
`findPrerequisitesNotKnown`.  `proficiency` is the `k.proficiency` map
value of the row: `none` renders the Cypher null. -/
structure MissingPrereq where
  name : String
  description : String
  strength : Rat
  explanation : String
  proficiency : Option Int
deriving Repr, DecidableEq

/-- `findPrerequisitesNotKnown`.  The query is

      MATCH (u:User {id: $userId})-[:HAS]->(lp:LearningProfile)
      MATCH (c:Concept) WHERE c.name IN $conceptNames
      MATCH (c)<-[p:PREREQUISITE_FOR]-(prereq:Concept)
      OPTIONAL MATCH (lp)-[k:KNOWS]->(prereq)
      WHERE k IS NULL OR k.proficiency < 3
      RETURN c.name AS conceptName, collect(DISTINCT {...}) AS missingPrerequisites

The final `WHERE` belongs to the `OPTIONAL MATCH`: while `k` is being
bound, `k IS NULL` is false, so the optional pattern binds `k` exactly
when a `KNOWS` edge with proficiency below 3 exists; in every other case
the row survives with `k` null.  No row is ever filtered out, so every
prerequisite of every target concept is collected, and the `proficiency`
entry is null unless the learner knows the prerequisite at proficiency
below 3.  Target concepts with no prerequisite rows (no incoming
`PREREQUISITE_FOR` edge) produce no output row at all, because the third
`MATCH` is non-optional. -/
def findPrerequisitesNotKnown (g : Graph) (userId : String)
    (conceptNames : List String) : List (String × List MissingPrereq) :=
  if userExists g userId then
    (g.concepts.filter (fun c => conceptNames.contains c.name)).filterMap (fun c =>
      let rows := (g.prereqFor.filter (fun p => p.conceptName == c.name)).flatMap (fun p =>
        (g.concepts.filter (fun q => q.name == p.prereqName)).map (fun q =>
          let k := g.knows.find? (fun k =>
            k.userId == userId && k.conceptName == q.name && decide (k.proficiency < 3))
          ⟨q.name, q.description, p.strength, p.explanation,
            k.map (fun e => e.proficiency)⟩))
      if rows.isEmpty then none else some (c.name, dedupKeep rows))
  else []

-- ============= RECOMMENDATION =============

/-- The row shape the `RETURN` of `getRecommendedNextConcepts` declares.
No call ever produces one — see `getRecommendedNextConcepts`. -/
structure RecEntry where
  name : String
  description : String
  complexity : Option Int
  shortExplanation : String
  topics : List String
  topicPriority : Int
  conceptComplexity : Int
  recommendationScore : Int
deriving Repr, DecidableEq

/-- `getRecommendedNextConcepts`.  The query string this method builds is
not valid Cypher: its second `WITH` clause,

      WITH c,
           CASE WHEN track IS NULL THEN 3 ELSE track.priority END AS topicPriority,
           CASE WHEN c.complexity IS NULL THEN 3 ELSE c.complexity END AS conceptComplexity

projects only `c`, `topicPriority` and `conceptComplexity` — dropping
`t` — while the `RETURN` clause still references
`collect(DISTINCT t.name) AS topics`.  `WITH` strictly delimits variable
scope, so the server rejects the query at compile time with
"Variable `t` not defined", in both query variants (with or without the
`$topic` argument) and regardless of the database contents.
`session.run` therefore rejects on every call, and the method — whose
`try` block has no `catch`, only a `finally` that closes the session —
propagates the error (modelled as `Except.error`).  No row is ever
returned, sorted or truncated. -/
def getRecommendedNextConcepts (_g : Graph) (_userId : String)
    (_topicArg : Option String) : Except String (List RecEntry) :=
  .error "Variable `t` not defined"

-- ============= GENERAL GRAPH OPERATIONS =============

/-- `identifyConceptsInText`:

      MATCH (c:Concept)
      WITH c, toLower(c.name) AS lowerName, toLower($text) AS lowerText
      WHERE lowerText CONTAINS lowerName
      RETURN c.name AS name

(here the `WHERE` follows a `WITH`, so it genuinely filters rows). -/
def identifyConceptsInText (g : Graph) (text : String) : List String :=
  ((g.concepts.filter (fun c =>
    containsSub (lowerStr text) (lowerStr c.name))).map (fun c => c.name))

-- ============= OVERVIEW / QUERY FACADE =============

/-- The aggregate row of `getUserOverview` (the two collected summary
lists are represented by their deduplicated name lists). -/
structure UserOverview where
  name : String
  preferredLearningStyle : String
  defaultDetailLevel : String
  activeTopics : List String
  learningGoals : String
  knownConceptsCount : Nat
  trackedTopicsCount : Nat
deriving Repr, DecidableEq

/-- `getUserOverview`.  The leading
`MATCH (u:User {id})-[:HAS]->(lp:LearningProfile)` produces zero rows for
an unknown user; the method then hits
`throw new Error("User overview not found for user " + userId)`, modelled
as `Except.error`. -/
def getUserOverview (g : Graph) (userId : String) : Except String UserOverview :=
  match g.users.find? (fun u => u.id == userId) with
  | none => .error ("User overview not found for user " ++ userId)
  | some u =>
    let known := dedupKeep ((g.knows.filter (fun k =>
      k.userId == userId && conceptExists g k.conceptName)).map (fun k => k.conceptName))
    let tracked := dedupKeep ((g.tracks.filter (fun t =>
      t.userId == userId && topicExists g t.topicName)).map (fun t => t.topicName))
    .ok ⟨u.name, u.preferredLearningStyle, u.defaultDetailLevel,
      u.activeTopics, u.learningGoals, known.length, tracked.length⟩

/-- One entry of the `concepts` collection of `getTopicKnowledge`. -/
structure TopicConceptInfo where
  name : String
  proficiency : Option Int
  knowledgeStage : Option String
  firstSeen : Option Nat
  lastUpdated : Option Nat
deriving Repr, DecidableEq

/-- The aggregate row of `getTopicKnowledge`. -/
structure TopicKnowledge where
  name : String
  category : String
  difficulty : Int
  summary : String
  priority : Option Int
  goal : Option String
  concepts : List TopicConceptInfo
deriving Repr, DecidableEq

/-- `getTopicKnowledge`.  Both the user pattern and
`MATCH (topic:Topic {name: $topicName})` are non-optional, so an unknown
user or topic produces zero rows and the method hits
`throw new Error("Topic knowledge not found for topic " + topicName)`,
modelled as `Except.error`.  Everything further is optional. -/
def getTopicKnowledge (g : Graph) (userId topicName : String) :
    Except String TopicKnowledge :=
  match g.users.find? (fun u => u.id == userId),
        g.topics.find? (fun t => t.name == topicName) with
  | some _, some t =>
    let tr := g.tracks.find? (fun r => r.userId == userId && r.topicName == topicName)
    let cs := (g.concepts.filter (fun c =>
      g.belongsTo.any (fun b => b.conceptName == c.name && b.topicName == topicName))).map
      (fun c =>
        match g.knows.find? (fun k => k.userId == userId && k.conceptName == c.name) with
        | some k => (⟨c.name, some k.proficiency, some k.knowledgeStage,
            some k.firstSeen, some k.lastUpdated⟩ : TopicConceptInfo)
        | none => ⟨c.name, none, none, none, none⟩)
    .ok ⟨t.name, t.category, t.difficulty, t.summary,
      tr.map (fun r => r.priority), tr.map (fun r => r.goal), dedupKeep cs⟩
  | _, _ => .error ("Topic knowledge not found for topic " ++ topicName)

/-- One row of `getConceptKnowledge`. -/
structure ConceptKnowledgeRow where
  name : String
  description : String
  complexity : Option Int
  proficiency : Option Int
  knowledgeStage : Option String
  firstSeen : Option Nat
  lastUpdated : Option Nat
  topics : List String
deriving Repr, DecidableEq

/-- `getConceptKnowledge`: one row per stored concept whose name is in the
request; zero rows — an empty list, not an error — when the user or every
requested concept is unknown. -/
def getConceptKnowledge (g : Graph) (userId : String)
    (conceptNames : List String) : List ConceptKnowledgeRow :=
  if userExists g userId then
    (g.concepts.filter (fun c => conceptNames.contains c.name)).map (fun c =>
      let k := g.knows.find? (fun k => k.userId == userId && k.conceptName == c.name)
      let ts := dedupKeep ((g.belongsTo.filter (fun b =>
        b.conceptName == c.name && topicExists g b.topicName)).map (fun b => b.topicName))
      ⟨c.name, c.description, c.complexity,
        k.map (fun e => e.proficiency), k.map (fun e => e.knowledgeStage),
        k.map (fun e => e.firstSeen), k.map (fun e => e.lastUpdated), ts⟩)
  else []

/-- One entry of the `relatedConcepts` collection of `getRelatedConcepts`. -/
structure RelatedConceptInfo where
  name : String
  relationshipType : String
  strength : Rat
  contextualNote : String
  known : Bool
  proficiency : Option Int
deriving Repr, DecidableEq

/-- The result of `getRelatedConcepts`. -/
structure RelatedResult where
  sourceConcept : String
  relatedConcepts : List RelatedConceptInfo
deriving Repr, DecidableEq

/-- `getRelatedConcepts`: the `RELATED_TO` pattern is undirected
(`(c)-[r:RELATED_TO]-(related)`), the user/profile/knowledge matches are
optional.  When the concept is unknown or has no `RELATED_TO` edge there
are zero records and the method returns
`{ sourceConcept: conceptName, relatedConcepts: [] }` — no error. -/
def getRelatedConcepts (g : Graph) (userId conceptName : String) : RelatedResult :=
  let info := fun (partner : String) (rt : String) (st : Rat) (note : String) =>
    let k := g.knows.find? (fun k => k.userId == userId && k.conceptName == partner)
    (⟨partner, rt, st, note, userExists g userId && k.isSome,
      k.map (fun e => e.proficiency)⟩ : RelatedConceptInfo)
  let rows := (g.concepts.filter (fun c => c.name == conceptName)).flatMap (fun c =>
    g.relatedTo.flatMap (fun r =>
      (if r.c1 == c.name && conceptExists g r.c2 then
        [info r.c2 r.relationshipType r.strength r.contextualNote] else []) ++
      (if r.c2 == c.name && conceptExists g r.c1 then
        [info r.c1 r.relationshipType r.strength r.contextualNote] else [])))
  if rows.isEmpty then ⟨conceptName, []⟩ else ⟨conceptName, dedupKeep rows⟩

/-- One row of `getRecentLearningEvents`. -/
structure EventRow where
  timestamp : Nat
  eventType : String
  details : String
  concepts : List String
deriving Repr, DecidableEq

/-- `getRecentLearningEvents`: the user's events, newest first, truncated
to `limit`; zero rows — an empty list, not an error — for an unknown
user. -/
def getRecentLearningEvents (g : Graph) (userId : String)
    (limit : Nat := 10) : List EventRow :=
  if userExists g userId then
    ((sortByDesc (fun e => (e.timestamp : Int))
      (g.events.filter (fun e => e.userId == userId))).map (fun e =>
        (⟨e.timestamp, e.eventType, e.details,
          if conceptExists g e.conceptName then [e.conceptName] else []⟩ : EventRow))).take limit
  else []

-- ============= FURTHER OBSERVERS =============

/-- The first Topic node named `n`. -/
def topicRecord (g : Graph) (n : String) : Option Topic :=
  g.topics.find? (fun t => t.name == n)

/-- The first Concept node named `n`. -/
def conceptRecord (g : Graph) (n : String) : Option Concept :=
  g.concepts.find? (fun c => c.name == n)

/-- All `BELONGS_TO` edges between a concept and a topic. -/
def belongsBetween (g : Graph) (c t : String) : List BelongsTo :=
  g.belongsTo.filter (fun b => b.conceptName == c && b.topicName == t)

/-- All `PREREQUISITE_FOR` edges between two concepts. -/
def prereqBetween (g : Graph) (a b : String) : List PrereqFor :=
  g.prereqFor.filter (fun p => p.prereqName == a && p.conceptName == b)

/-- All `RELATED_TO` edges from `a` to `b`. -/
def relatedBetween (g : Graph) (a b : String) : List RelatedTo :=
  g.relatedTo.filter (fun r => r.c1 == a && r.c2 == b)

-- ============= CONCRETE FIXTURES =============

/-- A user with a fresh profile (as `createUser` builds one). -/
def uFix : User := ⟨"u1", "Learner", "practical", "standard", [], "", 0⟩

/-- A database holding only the user `u1`: the "new user, no prior data"
scenario start. -/
def gS0 : Graph := { emptyGraph with users := [uFix] }

/-- First evidence of the spec scenario. -/
def evS1 : EvidenceInput := ⟨"recursion", 2, "learned", "intro"⟩

/-- Second evidence of the spec scenario. -/
def evS2 : EvidenceInput := ⟨"recursion", 1, "practiced", "more"⟩

/-- State after the first evidence application. -/
def gS1 : Graph := updateConceptKnowledge gS0 "u1" evS1 0

/-- State after the second evidence application. -/
def gS2 : Graph := updateConceptKnowledge gS1 "u1" evS2 1

/-- Gap-detection fixture: concept `A` has prerequisite `B` and the
learner knows `B` at proficiency 3. -/
def gGap : Graph :=
  { emptyGraph with
    users := [uFix]
    concepts := [⟨"A", "dA", some 3, "", [], [], ""⟩, ⟨"B", "dB", some 3, "", [], [], ""⟩]
    prereqFor := [⟨"B", "A", 4/5, "basics"⟩]
    knows := [⟨"u1", "B", 3, 4/5, 0, 0, 1, "learning", [], ""⟩] }

/-- Recommendation fixture: the learner already knows `c` at proficiency
5, `c` belongs to no topic, and no topic named `T` exists. -/
def gRec5 : Graph :=
  { emptyGraph with
    users := [uFix]
    concepts := [⟨"c", "dc", some 2, "", [], [], ""⟩]
    knows := [⟨"u1", "c", 5, 4/5, 0, 0, 1, "mastered", [], ""⟩] }

/-- Recommendation-ordering fixture: `c1` sits under the actively tracked
topic `T1` (priority 5) with complexity 2 (score 8); `c2` is untracked
with complexity 4 (score 2). -/
def gOrd : Graph :=
  { emptyGraph with
    users := [uFix]
    topics := [⟨"T1", "language", 3, "", []⟩]
    concepts := [⟨"c2", "d2", some 4, "", [], [], ""⟩, ⟨"c1", "d1", some 2, "", [], [], ""⟩]
    belongsTo := [⟨"c1", "T1", true, 1/2⟩]
    tracks := [⟨"u1", "T1", 0, true, 5, "Learning"⟩] }

-- ============= HELPER LEMMAS: GENERIC LIST MACHINERY =============

theorem find?_map_upd {s : α → Bool} {f : α → α}
    (hpres : ∀ x, s (f x) = s x) {e : α} :
    ∀ {l : List α}, l.find? s = some e →
      (l.map fun x => if s x then f x else x).find? s = some (f e) := by
  intro l
  induction l with
  | nil => intro h; simp at h
  | cons b bs ih =>
    intro h
    by_cases hb : s b
    · rw [List.find?_cons_of_pos _ hb] at h
      injection h with h; subst h
      simp only [List.map_cons, if_pos hb]
      exact List.find?_cons_of_pos _ (by rw [hpres]; exact hb)
    · rw [List.find?_cons_of_neg _ hb] at h
      simp only [List.map_cons, if_neg hb]
      rw [List.find?_cons_of_neg _ (by simp [hb])]
      exact ih h

theorem find?_map_fix {s : α → Bool} {φ : α → α}
    (hpres : ∀ x, s (φ x) = s x) (hfix : ∀ x, s x = true → φ x = x) :
    ∀ (l : List α), (l.map φ).find? s = l.find? s := by
  intro l
  induction l with
  | nil => rfl
  | cons b bs ih =>
    by_cases hb : s b
    · rw [List.map_cons, List.find?_cons_of_pos _ (by rw [hpres]; exact hb),
        List.find?_cons_of_pos _ hb, hfix b hb]
    · rw [List.map_cons, List.find?_cons_of_neg _ (by rw [hpres]; exact hb),
        List.find?_cons_of_neg _ hb, ih]

theorem filter_map_keyed {p : α → Bool} {upd : α → α} {v : α}
    (hud : ∀ x, p x = true → upd x = v) (hv : p v = true) :
    ∀ (l : List α), (l.filter p).length ≤ 1 → l.any p = true →
      ((l.map fun x => if p x then upd x else x).filter p) = [v] := by
  intro l
  induction l with
  | nil => intro _ h; simp at h
  | cons b bs ih =>
    intro hle hany
    by_cases hb : p b
    · have hbs : bs.filter p = [] := by
        by_contra hne
        rcases List.exists_mem_of_ne_nil _ hne with ⟨x, hx⟩
        have : 2 ≤ ((b :: bs).filter p).length := by
          rw [List.filter_cons_of_pos hb]
          have : 0 < (bs.filter p).length := List.length_pos.mpr hne
          simpa using this
        omega
      have hnone : ∀ x ∈ bs, ¬ p x := List.filter_eq_nil_iff.mp hbs
      have hmap : (bs.map fun x => if p x then upd x else x) = bs := by
        calc (bs.map fun x => if p x then upd x else x)
            = bs.map id := List.map_congr_left (fun x hx => by simp [hnone x hx])
          _ = bs := List.map_id bs
      simp only [List.map_cons, if_pos hb, hmap]
      rw [List.filter_cons_of_pos (by rw [hud b hb]; exact hv), hbs, hud b hb]
    · have hany' : bs.any p = true := by
        rcases List.any_eq_true.mp hany with ⟨x, hx, hpx⟩
        rcases List.mem_cons.mp hx with rfl | hx
        · exact absurd hpx hb
        · exact List.any_eq_true.mpr ⟨x, hx, hpx⟩
      have hle' : (bs.filter p).length ≤ 1 := by
        rw [List.filter_cons_of_neg hb] at hle
        exact hle
      simp only [List.map_cons, if_neg hb]
      rw [List.filter_cons_of_neg (by simpa using hb)]
      exact ih hle' hany'

theorem upsertBy_filter {p : α → Bool} {upd : α → α} {a v : α}
    (hud : ∀ x, p x = true → upd x = v) (ha : a = v) (hv : p v = true) :
    ∀ (l : List α), (l.filter p).length ≤ 1 → (upsertBy p upd a l).filter p = [v] := by
  intro l hle
  unfold upsertBy
  by_cases h : l.any p
  · rw [if_pos h]
    exact filter_map_keyed hud hv l hle h
  · rw [if_neg h, List.filter_append]
    have : l.filter p = [] := by
      refine List.filter_eq_nil_iff.mpr ?_
      intro x hx
      exact (List.any_eq_false.mp (Bool.not_eq_true _ ▸ Bool.of_not_eq_true h)) x hx
    rw [this, ha, List.filter_cons_of_pos hv]
    simp

-- ============= HELPER LEMMAS: STRINGS =============

theorem containsSub_empty_hay (s : String) :
    containsSub (lowerStr "") (lowerStr s) = (s == "") := by
  cases s with
  | mk l =>
    cases l with
    | nil => rfl
    | cons a as =>
      show insideList ((a :: as).map Char.toLower) [] = (String.mk (a :: as) == String.mk [])
      have h2 : (String.mk (a :: as) == String.mk []) = false := by
        refine beq_eq_false_iff_ne.mpr ?_
        intro h
        exact List.cons_ne_nil a as (by injection h)
      rw [h2]
      rfl

-- ============= CLAIM C2 =============

/-- C2: the stage-derivation function `getKnowledgeStage` is pure and
implements exactly the spec table: "learned" maps to "aware" for
proficiency at most 2 and "learning" otherwise; "practiced" maps to
"learning" for proficiency at most 3 and "practicing" otherwise;
"confused" always to "learning"; "mastered" always to "mastered"; any
other event type maps through the 1/3/4 default thresholds.  In
particular `getKnowledgeStage "learned" 2 = "aware"`,
`getKnowledgeStage "mastered" 0 = "mastered"` and
`getKnowledgeStage "practiced" 4 = "practicing"`. -/
theorem C2_stage_derivation :
    (∀ p : Int, getKnowledgeStage "learned" p = if p ≤ 2 then "aware" else "learning") ∧
    (∀ p : Int, getKnowledgeStage "practiced" p = if p ≤ 3 then "learning" else "practicing") ∧
    (∀ p : Int, getKnowledgeStage "confused" p = "learning") ∧
    (∀ p : Int, getKnowledgeStage "mastered" p = "mastered") ∧
    (∀ (et : String) (p : Int), et ≠ "learned" → et ≠ "practiced" → et ≠ "confused" →
      et ≠ "mastered" →
      getKnowledgeStage et p =
        if p ≤ 1 then "aware" else if p ≤ 3 then "learning"
        else if p ≤ 4 then "practicing" else "mastered") ∧
    getKnowledgeStage "learned" 2 = "aware" ∧
    getKnowledgeStage "mastered" 0 = "mastered" ∧
    getKnowledgeStage "practiced" 4 = "practicing" := by
  refine ⟨?_, ?_, ?_, ?_, ?_, by decide, by decide, by decide⟩
  · intro p; simp [getKnowledgeStage]
  · intro p; simp [getKnowledgeStage]
  · intro p; simp [getKnowledgeStage]
  · intro p; simp [getKnowledgeStage]
  · intro et p h1 h2 h3 h4; simp [getKnowledgeStage, h1, h2, h3, h4]

/-- Witness for C2: the default branch of the table at a concrete
unlisted event type. -/
theorem C2_stage_derivation_witness : getKnowledgeStage "reviewed" 0 = "aware" := by
  have h := C2_stage_derivation.2.2.2.2.1 "reviewed" 0
    (by decide) (by decide) (by decide) (by decide)
  simpa using h

-- ============= CLAIM C10 =============

/-- C10: `identifyConceptsInText` returns exactly the names of stored
concepts whose lowercased name occurs as a substring of the lowercased
input text; on the empty input it returns only the concepts whose name is
empty — not a listing of all concepts (even though the resource layer
calls it with an empty query to enumerate concepts). -/
theorem C10_identify_concepts :
    (∀ (g : Graph) (text n : String),
      n ∈ identifyConceptsInText g text ↔
        ∃ c ∈ g.concepts, c.name = n ∧
          containsSub (lowerStr text) (lowerStr n) = true) ∧
    (∀ g : Graph, identifyConceptsInText g "" =
      (g.concepts.filter (fun c => c.name == "")).map (fun c => c.name)) := by
  constructor
  · intro g text n
    unfold identifyConceptsInText
    simp only [List.mem_map, List.mem_filter]
    constructor
    · rintro ⟨c, ⟨hc, hsub⟩, rfl⟩
      exact ⟨c, hc, rfl, hsub⟩
    · rintro ⟨c, hc, rfl, hsub⟩
      exact ⟨c, ⟨hc, hsub⟩, rfl⟩
  · intro g
    unfold identifyConceptsInText
    congr 1
    apply List.filter_congr
    intro c _
    exact containsSub_empty_hay c.name

/-- Witness for C10: on the empty input over a store holding one
(nonempty-named) concept, the result is empty. -/
theorem C10_identify_concepts_witness : identifyConceptsInText gRec5 "" = [] := by
  have h := C10_identify_concepts.2 gRec5
  simpa using h

-- ============= HELPER LEMMAS: ENSURE-EXISTS =============

theorem ensureConceptExists_concepts (g : Graph) (n : String) :
    (ensureConceptExists g n).concepts =
      if conceptExists g n then g.concepts
      else g.concepts ++ [placeholderConcept n] := rfl

theorem ensureTopicExists_topics (g : Graph) (n cat : String) :
    (ensureTopicExists g n cat).topics =
      if topicExists g n then g.topics
      else g.topics ++ [placeholderTopic n cat] := rfl

theorem conceptExists_ensure_self (g : Graph) (n : String) :
    conceptExists (ensureConceptExists g n) n = true := by
  show ((ensureConceptExists g n).concepts.any fun c => c.name == n) = true
  rw [ensureConceptExists_concepts]
  cases h : conceptExists g n with
  | true => simp only [if_true]; exact h
  | false =>
    simp only [Bool.false_eq_true, if_false, List.any_append]
    simp [placeholderConcept]

theorem topicExists_ensure_self (g : Graph) (n cat : String) :
    topicExists (ensureTopicExists g n cat) n = true := by
  show ((ensureTopicExists g n cat).topics.any fun t => t.name == n) = true
  rw [ensureTopicExists_topics]
  cases h : topicExists g n with
  | true => simp only [if_true]; exact h
  | false =>
    simp only [Bool.false_eq_true, if_false, List.any_append]
    simp [placeholderTopic]

theorem topicRecord_ensure_self_of_not (g : Graph) (n cat : String)
    (h : topicExists g n = false) :
    topicRecord (ensureTopicExists g n cat) n = some (placeholderTopic n cat) := by
  have hnone : g.topics.find? (fun t => t.name == n) = none := by
    refine List.find?_eq_none.mpr ?_
    intro x hx
    have := List.any_eq_false.mp h x hx
    simpa using this
  show (ensureTopicExists g n cat).topics.find? (fun t => t.name == n) = _
  rw [ensureTopicExists_topics, h]
  simp [List.find?_append, hnone, placeholderTopic]

theorem conceptExists_ensure_mono (g : Graph) (m n : String)
    (h : conceptExists g n = true) :
    conceptExists (ensureConceptExists g m) n = true := by
  show ((ensureConceptExists g m).concepts.any fun c => c.name == n) = true
  rw [ensureConceptExists_concepts]
  cases hm : conceptExists g m with
  | true => simp only [if_true]; exact h
  | false =>
    simp only [Bool.false_eq_true, if_false, List.any_append]
    have : (g.concepts.any fun c => c.name == n) = true := h
    simp [this]

theorem conceptExists_ensure_of_ne (g : Graph) (m n : String) (hmn : m ≠ n) :
    conceptExists (ensureConceptExists g m) n = conceptExists g n := by
  show ((ensureConceptExists g m).concepts.any fun c => c.name == n) = _
  rw [ensureConceptExists_concepts]
  cases hm : conceptExists g m with
  | true => simp only [if_true]; rfl
  | false =>
    simp only [Bool.false_eq_true, if_false, List.any_append]
    have hne : ((placeholderConcept m).name == n) = false := by
      simp only [placeholderConcept]
      exact beq_eq_false_iff_ne.mpr hmn
    simp [hne, conceptExists]

theorem conceptRecord_ensure_self_of_not (g : Graph) (n : String)
    (h : conceptExists g n = false) :
    conceptRecord (ensureConceptExists g n) n = some (placeholderConcept n) := by
  have hnone : g.concepts.find? (fun c => c.name == n) = none := by
    refine List.find?_eq_none.mpr ?_
    intro x hx
    have := List.any_eq_false.mp h x hx
    simpa using this
  show (ensureConceptExists g n).concepts.find? (fun c => c.name == n) = _
  rw [ensureConceptExists_concepts, h]
  simp [List.find?_append, hnone, placeholderConcept]

theorem conceptRecord_ensure_pres (g : Graph) (m n : String) {x : Concept}
    (h : conceptRecord g n = some x) :
    conceptRecord (ensureConceptExists g m) n = some x := by
  show (ensureConceptExists g m).concepts.find? (fun c => c.name == n) = some x
  rw [ensureConceptExists_concepts]
  cases hm : conceptExists g m with
  | true => simp only [if_true]; exact h
  | false =>
    simp only [Bool.false_eq_true, if_false, List.find?_append]
    have : g.concepts.find? (fun c => c.name == n) = some x := h
    simp [this]

/-- Auto-creation through a double `ensureConceptExists` (the shape of
`setConceptPrerequisite` and `relateConceptsTogether`): the second
ensured name ends up with placeholder data when absent initially. -/
theorem conceptRecord_ensure_ensure_snd (g : Graph) (a b : String)
    (h : conceptExists g b = false) :
    conceptRecord (ensureConceptExists (ensureConceptExists g a) b) b =
      some (placeholderConcept b) := by
  by_cases hab : a = b
  · subst hab
    exact conceptRecord_ensure_pres _ a a (conceptRecord_ensure_self_of_not g a h)
  · have hb : conceptExists (ensureConceptExists g a) b = false := by
      rw [conceptExists_ensure_of_ne g a b hab]; exact h
    exact conceptRecord_ensure_self_of_not _ b hb

-- ============= CLAIM C8 =============

/-- C8: every association operation ensures both endpoint entities before
writing the edge.  A missing Concept is created with description
"Auto-generated concept" and complexity 3; a missing Topic with
difficulty 3, a summary naming it and no prerequisites; afterwards the
corresponding existence check returns true.  The conjuncts cover
`associateConceptWithTopic`, `setConceptPrerequisite` and
`relateConceptsTogether`. -/
theorem C8_auto_creation :
    (∀ (g : Graph) (c t : String) (pr : Bool) (imp : Rat),
      conceptExists (associateConceptWithTopic g c t pr imp) c = true ∧
      topicExists (associateConceptWithTopic g c t pr imp) t = true ∧
      (conceptExists g c = false →
        conceptRecord (associateConceptWithTopic g c t pr imp) c =
          some (placeholderConcept c)) ∧
      (topicExists g t = false →
        topicRecord (associateConceptWithTopic g c t pr imp) t =
          some (placeholderTopic t "concept"))) ∧
    (∀ (g : Graph) (a b : String) (st : Rat) (ex : String),
      conceptExists (setConceptPrerequisite g a b st ex) a = true ∧
      conceptExists (setConceptPrerequisite g a b st ex) b = true ∧
      (conceptExists g a = false →
        conceptRecord (setConceptPrerequisite g a b st ex) a =
          some (placeholderConcept a)) ∧
      (conceptExists g b = false →
        conceptRecord (setConceptPrerequisite g a b st ex) b =
          some (placeholderConcept b))) ∧
    (∀ (g : Graph) (a b rt : String) (st : Rat) (note : String),
      conceptExists (relateConceptsTogether g a b rt st note) a = true ∧
      conceptExists (relateConceptsTogether g a b rt st note) b = true ∧
      (conceptExists g a = false →
        conceptRecord (relateConceptsTogether g a b rt st note) a =
          some (placeholderConcept a)) ∧
      (conceptExists g b = false →
        conceptRecord (relateConceptsTogether g a b rt st note) b =
          some (placeholderConcept b))) := by
  refine ⟨?_, ?_, ?_⟩
  · intro g c t pr imp
    refine ⟨?_, ?_, ?_, ?_⟩
    · show conceptExists (ensureConceptExists g c) c = true
      exact conceptExists_ensure_self g c
    · show topicExists (ensureTopicExists (ensureConceptExists g c) t) t = true
      exact topicExists_ensure_self _ t "concept"
    · intro h
      show conceptRecord (ensureConceptExists g c) c = _
      exact conceptRecord_ensure_self_of_not g c h
    · intro h
      show topicRecord (ensureTopicExists (ensureConceptExists g c) t) t = _
      exact topicRecord_ensure_self_of_not (ensureConceptExists g c) t "concept" h
  · intro g a b st ex
    refine ⟨?_, ?_, ?_, ?_⟩
    · show conceptExists (ensureConceptExists (ensureConceptExists g a) b) a = true
      exact conceptExists_ensure_mono _ b a (conceptExists_ensure_self g a)
    · show conceptExists (ensureConceptExists (ensureConceptExists g a) b) b = true
      exact conceptExists_ensure_self _ b
    · intro h
      show conceptRecord (ensureConceptExists (ensureConceptExists g a) b) a = _
      exact conceptRecord_ensure_pres _ b a (conceptRecord_ensure_self_of_not g a h)
    · intro h
      show conceptRecord (ensureConceptExists (ensureConceptExists g a) b) b = _
      exact conceptRecord_ensure_ensure_snd g a b h
  · intro g a b rt st note
    refine ⟨?_, ?_, ?_, ?_⟩
    · show conceptExists (ensureConceptExists (ensureConceptExists g a) b) a = true
      exact conceptExists_ensure_mono _ b a (conceptExists_ensure_self g a)
    · show conceptExists (ensureConceptExists (ensureConceptExists g a) b) b = true
      exact conceptExists_ensure_self _ b
    · intro h
      show conceptRecord (ensureConceptExists (ensureConceptExists g a) b) a = _
      exact conceptRecord_ensure_pres _ b a (conceptRecord_ensure_self_of_not g a h)
    · intro h
      show conceptRecord (ensureConceptExists (ensureConceptExists g a) b) b = _
      exact conceptRecord_ensure_ensure_snd g a b h

/-- Witness for C8: associating two fresh names on the empty database
creates both with placeholder data. -/
theorem C8_auto_creation_witness :
    conceptExists (associateConceptWithTopic emptyGraph "c" "t" false (1/2)) "c" = true ∧
    conceptRecord (associateConceptWithTopic emptyGraph "c" "t" false (1/2)) "c" =
      some (placeholderConcept "c") ∧
    topicRecord (associateConceptWithTopic emptyGraph "c" "t" false (1/2)) "t" =
      some (placeholderTopic "t" "concept") := by
  have h := C8_auto_creation.1 emptyGraph "c" "t" false (1/2)
  exact ⟨h.1, h.2.2.1 (by decide), h.2.2.2 (by decide)⟩

-- ============= CLAIM C7 =============

/-- C7: association writes are idempotent upserts.  Starting from a store
with at most one edge between the two endpoints (the invariant the merge
maintains), one call leaves exactly one edge carrying the written
attributes, and a second call — with the same or different attributes —
still leaves exactly one edge, now carrying the attributes of the second
call (so same-attribute repetition changes nothing and re-application
overwrites in place).  The conjuncts cover `associateConceptWithTopic`
(`BELONGS_TO`), `setConceptPrerequisite` (`PREREQUISITE_FOR`) and
`relateConceptsTogether` (`RELATED_TO`). -/
theorem C7_idempotent_association :
    (∀ (g : Graph) (c t : String) (p1 : Bool) (i1 : Rat) (p2 : Bool) (i2 : Rat),
      (belongsBetween g c t).length ≤ 1 →
      belongsBetween (associateConceptWithTopic g c t p1 i1) c t = [⟨c, t, p1, i1⟩] ∧
      belongsBetween
        (associateConceptWithTopic (associateConceptWithTopic g c t p1 i1) c t p2 i2)
        c t = [⟨c, t, p2, i2⟩]) ∧
    (∀ (g : Graph) (a b : String) (s1 : Rat) (e1 : String) (s2 : Rat) (e2 : String),
      (prereqBetween g a b).length ≤ 1 →
      prereqBetween (setConceptPrerequisite g a b s1 e1) a b = [⟨a, b, s1, e1⟩] ∧
      prereqBetween
        (setConceptPrerequisite (setConceptPrerequisite g a b s1 e1) a b s2 e2)
        a b = [⟨a, b, s2, e2⟩]) ∧
    (∀ (g : Graph) (a b rt1 : String) (s1 : Rat) (n1 rt2 : String) (s2 : Rat) (n2 : String),
      (relatedBetween g a b).length ≤ 1 →
      relatedBetween (relateConceptsTogether g a b rt1 s1 n1) a b = [⟨a, b, rt1, s1, n1⟩] ∧
      relatedBetween
        (relateConceptsTogether (relateConceptsTogether g a b rt1 s1 n1) a b rt2 s2 n2)
        a b = [⟨a, b, rt2, s2, n2⟩]) := by
  have hbelongs : ∀ (g : Graph) (c t : String) (pr : Bool) (im : Rat),
      (belongsBetween g c t).length ≤ 1 →
      belongsBetween (associateConceptWithTopic g c t pr im) c t = [⟨c, t, pr, im⟩] := by
    intro g c t pr im hle
    refine upsertBy_filter ?_ rfl ?_ g.belongsTo hle
    · intro x hx
      cases x with
      | mk xc xt xp xi =>
        simp only [Bool.and_eq_true, beq_iff_eq] at hx
        obtain ⟨h1, h2⟩ := hx
        subst h1; subst h2; rfl
    · simp
  have hprereq : ∀ (g : Graph) (a b : String) (st : Rat) (ex : String),
      (prereqBetween g a b).length ≤ 1 →
      prereqBetween (setConceptPrerequisite g a b st ex) a b = [⟨a, b, st, ex⟩] := by
    intro g a b st ex hle
    refine upsertBy_filter ?_ rfl ?_ g.prereqFor hle
    · intro x hx
      cases x with
      | mk xa xb xs xe =>
        simp only [Bool.and_eq_true, beq_iff_eq] at hx
        obtain ⟨h1, h2⟩ := hx
        subst h1; subst h2; rfl
    · simp
  have hrelated : ∀ (g : Graph) (a b rt : String) (st : Rat) (note : String),
      (relatedBetween g a b).length ≤ 1 →
      relatedBetween (relateConceptsTogether g a b rt st note) a b = [⟨a, b, rt, st, note⟩] := by
    intro g a b rt st note hle
    refine upsertBy_filter ?_ rfl ?_ g.relatedTo hle
    · intro x hx
      cases x with
      | mk xa xb xr xs xn =>
        simp only [Bool.and_eq_true, beq_iff_eq] at hx
        obtain ⟨h1, h2⟩ := hx
        subst h1; subst h2; rfl
    · simp
  refine ⟨?_, ?_, ?_⟩
  · intro g c t p1 i1 p2 i2 hle
    have h1 := hbelongs g c t p1 i1 hle
    have hlen : (belongsBetween (associateConceptWithTopic g c t p1 i1) c t).length ≤ 1 := by
      rw [h1]; simp
    exact ⟨h1, hbelongs _ c t p2 i2 hlen⟩
  · intro g a b s1 e1 s2 e2 hle
    have h1 := hprereq g a b s1 e1 hle
    have hlen : (prereqBetween (setConceptPrerequisite g a b s1 e1) a b).length ≤ 1 := by
      rw [h1]; simp
    exact ⟨h1, hprereq _ a b s2 e2 hlen⟩
  · intro g a b rt1 s1 n1 rt2 s2 n2 hle
    have h1 := hrelated g a b rt1 s1 n1 hle
    have hlen : (relatedBetween (relateConceptsTogether g a b rt1 s1 n1) a b).length ≤ 1 := by
      rw [h1]; simp
    exact ⟨h1, hrelated _ a b rt2 s2 n2 hlen⟩

/-- Witness for C7: two associations on the empty database produce exactly
one `BELONGS_TO` edge carrying the attributes of the second call. -/
theorem C7_idempotent_association_witness :
    belongsBetween
      (associateConceptWithTopic (associateConceptWithTopic emptyGraph "c" "t" false (1/2))
        "c" "t" true (1/4)) "c" "t" = [⟨"c", "t", true, 1/4⟩] :=
  (C7_idempotent_association.1 emptyGraph "c" "t" false (1/2) true (1/4) (by decide)).2

-- ============= HELPER LEMMAS: KNOWLEDGE STATE =============

theorem updateConceptKnowledge_knows (g : Graph) (u : String)
    (ev : EvidenceInput) (now : Nat) :
    (updateConceptKnowledge g u ev now).knows =
      if userExists g u then
        upsertBy (fun k => k.userId == u && k.conceptName == ev.name)
          (applyKnowsMatch ev now) (newKnows u ev now) g.knows
      else g.knows := by
  show (if userExists g u && conceptExists (ensureConceptExists g ev.name) ev.name
    then upsertBy (fun k => k.userId == u && k.conceptName == ev.name)
          (applyKnowsMatch ev now) (newKnows u ev now) g.knows
    else g.knows) = _
  rw [conceptExists_ensure_self, Bool.and_true]

theorem if_gt_eq_max (a b : Int) : (if b > a then b else a) = max a b := by
  by_cases h : b > a
  · rw [if_pos h, max_eq_right (le_of_lt h)]
  · rw [if_neg h, max_eq_left (not_lt.mp h)]

/-- One evidence application never lowers the stored proficiency of any
`KNOWS` edge of the same user. -/
theorem knowsProficiency_update_mono (g : Graph) (u : String)
    (ev : EvidenceInput) (now : Nat) (c : String) (q : Int)
    (h : knowsProficiency g u c = some q) :
    ∃ q', knowsProficiency (updateConceptKnowledge g u ev now) u c = some q' ∧
      q ≤ q' := by
  obtain ⟨e, he, hq⟩ : ∃ e, knowsEdge g u c = some e ∧ e.proficiency = q := by
    unfold knowsProficiency at h
    cases hke : knowsEdge g u c with
    | none => rw [hke] at h; simp at h
    | some e => rw [hke] at h; exact ⟨e, rfl, by simpa using h⟩
  have he' : g.knows.find? (fun k => k.userId == u && k.conceptName == c) = some e := he
  unfold knowsProficiency knowsEdge
  rw [updateConceptKnowledge_knows]
  by_cases hu : userExists g u
  · rw [if_pos hu]
    unfold upsertBy
    by_cases hany : g.knows.any (fun k => k.userId == u && k.conceptName == ev.name)
    · rw [if_pos hany]
      by_cases hc : ev.name = c
      · subst hc
        have hfound := find?_map_upd (s := fun k => k.userId == u && k.conceptName == ev.name)
          (f := applyKnowsMatch ev now)
          (fun x => by simp [applyKnowsMatch]) he'
        rw [hfound]
        refine ⟨(applyKnowsMatch ev now e).proficiency, rfl, ?_⟩
        show q ≤ if ev.proficiency > e.proficiency then ev.proficiency else e.proficiency
        rw [if_gt_eq_max, ← hq]
        exact le_max_left _ _
      · have hfix := find?_map_fix
          (s := fun k => k.userId == u && k.conceptName == c)
          (φ := fun x => if (x.userId == u && x.conceptName == ev.name) then
            applyKnowsMatch ev now x else x)
          (fun x => by
            by_cases hp : (x.userId == u && x.conceptName == ev.name) <;>
              simp [hp, applyKnowsMatch])
          (fun x hx => by
            have hxc : x.conceptName = c := by
              simp only [Bool.and_eq_true, beq_iff_eq] at hx
              exact hx.2
            have : (x.conceptName == ev.name) = false :=
              beq_eq_false_iff_ne.mpr (by rw [hxc]; exact fun hne => hc hne.symm)
            simp [this])
          g.knows
        rw [hfix, he']
        exact ⟨q, by simp [hq], le_refl q⟩
    · rw [if_neg hany, List.find?_append, he']
      exact ⟨q, by simp [hq], le_refl q⟩
  · rw [if_neg hu, he']
    exact ⟨q, by simp [hq], le_refl q⟩

/-- Monotonicity through the per-concept fold of `updateLearningProfile`. -/
theorem knowsProficiency_foldl_mono (u : String) (now : Nat) (c : String) :
    ∀ (l : List EvidenceInput) (g : Graph) (q : Int),
      knowsProficiency g u c = some q →
      ∃ q', knowsProficiency
        (l.foldl (fun acc ev => updateConceptKnowledge acc u ev now) g) u c = some q' ∧
        q ≤ q' := by
  intro l
  induction l with
  | nil => intro g q h; exact ⟨q, h, le_refl q⟩
  | cons ev l ih =>
    intro g q h
    obtain ⟨q1, h1, hle1⟩ := knowsProficiency_update_mono g u ev now c q h
    obtain ⟨q2, h2, hle2⟩ := ih (updateConceptKnowledge g u ev now) q1 h1
    exact ⟨q2, h2, le_trans hle1 hle2⟩

-- ============= CLAIM C1 =============

/-- C1: evidence application is monotone in proficiency — after any
`updateConceptKnowledge` or `updateLearningProfile` call by a user, the
stored proficiency on each of that user's `KNOWS` edges is at least what
it was before the call; in particular along any sequence of calls on the
same (user, concept) pair the stored proficiency never decreases. -/
theorem C1_monotonic_proficiency :
    (∀ (g : Graph) (u : String) (ev : EvidenceInput) (now : Nat) (c : String) (q : Int),
      knowsProficiency g u c = some q →
      ∃ q', knowsProficiency (updateConceptKnowledge g u ev now) u c = some q' ∧
        q ≤ q') ∧
    (∀ (g : Graph) (u : String) (data : ProfileUpdateData) (now : Nat) (c : String) (q : Int),
      knowsProficiency g u c = some q →
      ∃ q', knowsProficiency (updateLearningProfile g u data now) u c = some q' ∧
        q ≤ q') := by
  constructor
  · exact knowsProficiency_update_mono
  · intro g u data now c q h
    have hsame : knowsProficiency (updateLearningProfile g u data now) u c =
        knowsProficiency
          (data.concepts.foldl (fun acc ev => updateConceptKnowledge acc u ev now) g) u c := rfl
    rw [hsame]
    exact knowsProficiency_foldl_mono u now c data.concepts g q h

/-- Witness for C1: the scenario's second evidence call (lower proficiency
estimate 1) leaves the stored proficiency at 2. -/
theorem C1_monotonic_proficiency_witness :
    ∃ q', knowsProficiency gS2 "u1" "recursion" = some q' ∧ (2 : Int) ≤ q' :=
  C1_monotonic_proficiency.1 gS1 "u1" evS2 1 "recursion" 2 (by decide)

-- ============= CLAIM C3 =============

/-- C3: the `KNOWS` merge.  On first evidence for a (user, concept) pair
the edge is created with the given proficiency, confidence 0.8,
evidenceCount 1, firstSeen = now, stage derived from the evidence, and
notes = details (third conjunct spells out every created field).  On
subsequent evidence the edge keeps its identity and firstSeen, takes the
maximum proficiency, increments evidenceCount, recomputes the stage from
the new evidence only, and appends the details to notes joined by a
newline.  The last two conjuncts evaluate the spec scenario: first call
(proficiency 2, "learned") gives proficiency 2 / count 1 / "aware";
second call (proficiency 1, "practiced") gives proficiency 2 / count 2 /
"learning", firstSeen unchanged, notes appended. -/
theorem C3_knows_merge :
    (∀ (g : Graph) (u : String) (ev : EvidenceInput) (now : Nat),
      userExists g u = true → knowsFor g u ev.name = [] →
      knowsFor (updateConceptKnowledge g u ev now) u ev.name = [newKnows u ev now]) ∧
    (∀ (g : Graph) (u : String) (ev : EvidenceInput) (now : Nat) (e : Knows),
      userExists g u = true → knowsEdge g u ev.name = some e →
      knowsEdge (updateConceptKnowledge g u ev now) u ev.name =
        some { e with proficiency := max e.proficiency ev.proficiency,
                      lastUpdated := now,
                      evidenceCount := e.evidenceCount + 1,
                      knowledgeStage := getKnowledgeStage ev.eventType ev.proficiency,
                      notes := e.notes ++ "\n" ++ ev.details }) ∧
    (∀ (u : String) (ev : EvidenceInput) (now : Nat),
      newKnows u ev now = ⟨u, ev.name, ev.proficiency, 4/5, now, now, 1,
        getKnowledgeStage ev.eventType ev.proficiency, [], ev.details⟩) ∧
    (gS1.knows.map (fun k =>
        (k.conceptName, k.proficiency, k.evidenceCount, k.knowledgeStage)) =
      [("recursion", 2, 1, "aware")]) ∧
    (gS2.knows.map (fun k =>
        (k.conceptName, k.proficiency, k.evidenceCount, k.knowledgeStage, k.firstSeen, k.notes)) =
      [("recursion", 2, 2, "learning", 0, "intro\nmore")]) := by
  refine ⟨?_, ?_, fun u ev now => rfl, by decide, by decide⟩
  · intro g u ev now hu hnone
    have hflt : g.knows.filter (fun k => k.userId == u && k.conceptName == ev.name) = [] :=
      hnone
    show (updateConceptKnowledge g u ev now).knows.filter _ = _
    rw [updateConceptKnowledge_knows, if_pos hu]
    unfold upsertBy
    have hany : g.knows.any (fun k => k.userId == u && k.conceptName == ev.name) = false := by
      refine List.any_eq_false.mpr ?_
      intro x hx hpx
      have hmem : x ∈ g.knows.filter (fun k => k.userId == u && k.conceptName == ev.name) :=
        List.mem_filter.mpr ⟨hx, hpx⟩
      rw [hflt] at hmem
      simp at hmem
    rw [hany]
    simp only [Bool.false_eq_true, if_false, List.filter_append]
    rw [hflt]
    simp [newKnows]
  · intro g u ev now e hu he
    have he' : g.knows.find? (fun k => k.userId == u && k.conceptName == ev.name) = some e := he
    show (updateConceptKnowledge g u ev now).knows.find? _ = _
    rw [updateConceptKnowledge_knows, if_pos hu]
    unfold upsertBy
    have hany : g.knows.any (fun k => k.userId == u && k.conceptName == ev.name) = true :=
      List.any_eq_true.mpr ⟨e, List.mem_of_find?_eq_some he',
        List.find?_some (p := fun k : Knows => k.userId == u && k.conceptName == ev.name) he'⟩
    rw [hany]
    simp only [if_true]
    have hfound := find?_map_upd (s := fun k => k.userId == u && k.conceptName == ev.name)
      (f := applyKnowsMatch ev now) (fun x => by simp [applyKnowsMatch]) he'
    rw [hfound]
    congr 1
    unfold applyKnowsMatch
    rw [if_gt_eq_max]

/-- Witness for C3: applying evidence about a fresh concept to the
scenario user creates exactly the spelled-out edge. -/
theorem C3_knows_merge_witness :
    knowsFor (updateConceptKnowledge gS0 "u1" evS1 0) "u1" "recursion" =
      [newKnows "u1" evS1 0] :=
  C3_knows_merge.1 gS0 "u1" evS1 0 (by decide) (by decide)

-- ============= CLAIM C9 =============

/-- Counterexample to C9 as stated: `getUserOverview` on an unknown user
and `getTopicKnowledge` on an unknown topic do NOT return a not-found
signal — they raise (`throw new Error(...)` in the source, the
`Except.error` constructor here), aborting the caller. -/
theorem C9_counterexample :
    getUserOverview emptyGraph "u1" =
      Except.error "User overview not found for user u1" ∧
    getTopicKnowledge emptyGraph "u1" "T" =
      Except.error "Topic knowledge not found for topic T" :=
  ⟨rfl, rfl⟩

/-- C9 (amended): of the five read aggregations, `getConceptKnowledge`,
`getRelatedConcepts` and `getRecentLearningEvents` return a not-found
signal (empty results) when data is absent for the requested scope, but
`getUserOverview` (unknown user) and `getTopicKnowledge` (unknown topic)
raise an error instead. -/
theorem C9_not_found_signals :
    (∀ (g : Graph) (u : String), userExists g u = false →
      getUserOverview g u = .error ("User overview not found for user " ++ u)) ∧
    (∀ (g : Graph) (u t : String), topicExists g t = false →
      getTopicKnowledge g u t = .error ("Topic knowledge not found for topic " ++ t)) ∧
    (∀ (g : Graph) (u : String) (ns : List String), userExists g u = false →
      getConceptKnowledge g u ns = []) ∧
    (∀ (g : Graph) (u c : String), conceptExists g c = false →
      getRelatedConcepts g u c = ⟨c, []⟩) ∧
    (∀ (g : Graph) (u : String) (lim : Nat), userExists g u = false →
      getRecentLearningEvents g u lim = []) := by
  refine ⟨?_, ?_, ?_, ?_, ?_⟩
  · intro g u h
    have hnone : g.users.find? (fun x => x.id == u) = none := by
      refine List.find?_eq_none.mpr ?_
      intro x hx
      simpa using List.any_eq_false.mp h x hx
    unfold getUserOverview
    rw [hnone]
  · intro g u t h
    have hnone : g.topics.find? (fun x => x.name == t) = none := by
      refine List.find?_eq_none.mpr ?_
      intro x hx
      simpa using List.any_eq_false.mp h x hx
    unfold getTopicKnowledge
    rw [hnone]
    cases g.users.find? (fun x => x.id == u) <;> rfl
  · intro g u ns h
    unfold getConceptKnowledge
    rw [h]
    rfl
  · intro g u c h
    have hflt : g.concepts.filter (fun x => x.name == c) = [] := by
      refine List.filter_eq_nil_iff.mpr ?_
      intro x hx
      simpa using List.any_eq_false.mp h x hx
    unfold getRelatedConcepts
    rw [hflt]
    rfl
  · intro g u lim h
    unfold getRecentLearningEvents
    rw [h]
    rfl

/-- Witness for the amended C9 at concrete absent scopes. -/
theorem C9_not_found_signals_witness :
    getConceptKnowledge emptyGraph "u9" ["x"] = [] ∧
    getRelatedConcepts emptyGraph "u9" "x" = ⟨"x", []⟩ ∧
    getRecentLearningEvents emptyGraph "u9" 10 = [] ∧
    getUserOverview emptyGraph "u9" = .error ("User overview not found for user " ++ "u9") := by
  refine ⟨?_, ?_, ?_, ?_⟩
  · exact C9_not_found_signals.2.2.1 emptyGraph "u9" ["x"] (by decide)
  · exact C9_not_found_signals.2.2.2.1 emptyGraph "u9" "x" (by decide)
  · exact C9_not_found_signals.2.2.2.2 emptyGraph "u9" 10 (by decide)
  · exact C9_not_found_signals.1 emptyGraph "u9" (by decide)

-- ============= CLAIM C4 =============

/-- C4 fails on the code: in `findPrerequisitesNotKnown` the
`WHERE k IS NULL OR k.proficiency < 3` is part of the preceding
`OPTIONAL MATCH`, so it never filters a row; a prerequisite known at
proficiency 3 is still returned in the missing list (with a null
proficiency attribute).  This theorem evaluates the query at the failing
input: the learner knows `B` at proficiency 3, `B` is a prerequisite of
`A`, and `B` still appears in `A`'s missing list. -/
theorem C4_gap_detection_eval :
    (findPrerequisitesNotKnown gGap "u1" ["A"]).map
        (fun r => (r.1, r.2.map (fun m => (m.name, m.proficiency)))) =
      [("A", [("B", (none : Option Int))])] ∧
    knowsProficiency gGap "u1" "B" = some 3 := by
  exact ⟨by decide, by decide⟩

-- ============= CLAIM C6 =============

/-- C6 fails on the code: no candidate set is ever computed.  The query
built by `getRecommendedNextConcepts` references `t` in its `RETURN`
after the second `WITH` has dropped it, so the server rejects the query
and every call raises instead of returning candidates.  (Independently,
even with that reference repaired, the `WHERE` clauses attached to the
`OPTIONAL MATCH` patterns — `k IS NULL OR k.proficiency < 4` and
`track.active = true OR track IS NULL AND t.name = $topic` — are pattern
predicates, not row filters, so they would not implement the claimed
proficiency, active-tracking or named-topic restrictions either.)
Evaluated at the failing input: the learner knows `c` at proficiency 5
and no topic named `T` exists, and the call with topic argument "T"
errors rather than producing the claimed (here: empty) candidate list. -/
theorem C6_candidate_filter_eval :
    getRecommendedNextConcepts gRec5 "u1" (some "T") =
      .error "Variable `t` not defined" ∧
    userExists gRec5 "u1" = true ∧
    knowsProficiency gRec5 "u1" "c" = some 5 ∧
    topicExists gRec5 "T" = false :=
  ⟨rfl, by decide, by decide, by decide⟩

-- ============= CLAIM C5 =============

/-- C5 fails on the code: `getRecommendedNextConcepts` never assigns a
score, sorts, or truncates anything, because the query it builds is
rejected by the server — the `RETURN` references `collect(DISTINCT
t.name)` although the second `WITH` projects only `c`, `topicPriority`
and `conceptComplexity` — and the method propagates the error on every
call.  This theorem evaluates the method at the claim's own ordering
example (user `u1` actively tracking `T1` with priority 5; eligible
candidates `c1` of complexity 2 in `T1` and `c2` of complexity 4,
untracked): instead of entries with scores 8 and 2 in descending order,
the call errors. -/
theorem C5_recommendation_error_eval :
    getRecommendedNextConcepts gOrd "u1" none =
      .error "Variable `t` not defined" ∧
    userExists gOrd "u1" = true ∧
    gOrd.tracks = [⟨"u1", "T1", 0, true, 5, "Learning"⟩] ∧
    gOrd.concepts.map (fun c => (c.name, c.complexity)) =
      [("c2", some 4), ("c1", some 2)] :=
  ⟨rfl, by decide, by decide, by decide⟩

end KG
